import Mathlib

/-!
Shallow embedding of the x86 stack-chunk freeze/thaw engine of the loom
repository (continuation_x86.inline.hpp, instanceStackChunkKlass_x86.inline.hpp,
smallRegisterMap_aarch64.inline.hpp, jvmtiEnvBase.cpp).

Addresses are modelled as `Int`, counted in machine words (an `intptr_t*`
increment is one word), except where byte granularity matters (Thaw::align),
which is stated on byte addresses.  Stack memory is a total map from word
addresses to word values.
-/

namespace Loom

/-- Word-addressed stack/chunk memory. -/
def Mem : Type := Int → Int

/-- Store one word. -/
def Mem.write (m : Mem) (a v : Int) : Mem := fun x => if x = a then v else m x

/-- Read one word (application). -/
def Mem.read (m : Mem) (a : Int) : Int := m a

theorem Mem.read_write_same (m : Mem) (a v : Int) : (m.write a v).read a = v := by
  simp [Mem.write, Mem.read]

theorem Mem.read_write_ne (m : Mem) (a v x : Int) (h : x ≠ a) :
    (m.write a v).read x = m.read x := by
  simp [Mem.write, Mem.read, h]

/-! ### x86 frame-layout constants (frame_x86.hpp values used by the excerpt) -/

/-- `frame::sender_sp_offset` on x86: the saved link sits two words below the
sender's stack pointer. -/
def senderSpOffset : Int := 2

/-- `ContinuationHelper::frame_metadata = frame::sender_sp_offset`
(continuation_x86.inline.hpp line 32). -/
def frame_metadata : Int := senderSpOffset

/-- `ContinuationHelper::align_wiggle` (continuation_x86.inline.hpp line 33). -/
def align_wiggle : Int := 1

/-- `frame::sender_sp_ret_address_offset()` on x86: the return address sits one
word below the sender's stack pointer. -/
def senderSpRetAddressOffset : Int := 1

/-- `frame::interpreter_frame_sender_sp_offset` on x86. -/
def interpreterFrameSenderSpOffset : Int := -1

/-- `frame::interpreter_frame_last_sp_offset` on x86. -/
def interpreterFrameLastSpOffset : Int := -2

/-- `frame::interpreter_frame_locals_offset` on x86. -/
def interpreterFrameLocalsOffset : Int := -7

/-- `frame::interpreter_frame_initial_sp_offset` on x86. -/
def interpreterFrameInitialSpOffset : Int := -9

/-! ### C1: relativize_one / derelativize_one -/

/-- `relativize_one(vfp, hfp, offset)` (continuation_x86.inline.hpp 123-128):
the chunk copy's slot at `hfp + offset` holds an absolute address; replace it
with that address minus the physical frame pointer `vfp`. -/
def relativize_one (vfp hfp : Int) (offset : Int) (m : Mem) : Mem :=
  m.write (hfp + offset) (m.read (hfp + offset) - vfp)

/-- `derelativize_one(fp, offset)` (continuation_x86.inline.hpp 223-226):
the slot at `fp + offset` holds an offset; replace it with `fp` plus that
offset. -/
def derelativize_one (fp : Int) (offset : Int) (m : Mem) : Mem :=
  m.write (fp + offset) (fp + m.read (fp + offset))

/-! ### Frame views (the cursor state `new_hframe` and `patch_pd` consult) -/

/-- The fields of a `frame` read by the freeze placement and patch steps:
`unextended_sp`, `fp`, tier classification, and the caller-cursor emptiness
test `is_empty()`. -/
structure FrameView where
  sp : Int
  unextendedSp : Int
  fp : Int
  pc : Int
  interpreted : Bool
  empty : Bool

/-! ### C2: Freeze::new_hframe (continuation_x86.inline.hpp 167-204) -/

/-- Interpreted branch of `Freeze::new_hframe`: the chunk frame pointer and
chunk sp of an interpreted frame, placed relative to the caller's
already-computed chunk position.  `locals` is
`f.interpreter_frame_method()->max_locals()`, `stack_argsize` is
`Interpreted::stack_argsize(f)`, and `fpMinusUnextendedSp` is
`f.fp() - f.unextended_sp()` (the frame's depth below its own fp).
Returns `(sp, fp)`. -/
def new_hframe_interpreted (caller : FrameView) (locals stack_argsize fpMinusUnextendedSp : Int) :
    Int × Int :=
  let overlap_caller := caller.interpreted || caller.empty
  let fp := caller.unextendedSp - (locals + senderSpOffset)
            + (if overlap_caller then stack_argsize else 0)
  let sp := fp - fpMinusUnextendedSp
  (sp, fp)

/-- Compiled branch of `Freeze::new_hframe`: the chunk sp of a compiled frame.
`fsize` is `FKind::size(f)` (the compiled routine's fixed frame size) and
`stack_argsize` is `FKind::stack_argsize(f)`. -/
def new_hframe_compiled (caller : FrameView) (fsize stack_argsize : Int) : Int :=
  let sp := caller.unextendedSp - fsize
  if caller.interpreted then sp - stack_argsize else sp

/-! ### C3: Freeze::patch_pd and the two link-patch helpers
(continuation_x86.inline.hpp 43-51, 206-215).  `la` stands for the value of
`Frame::callee_link_address(caller)`, the address of the frozen callee's link
slot. -/

/-- `patch_callee_link(f, fp)`: store the absolute frame pointer in the callee
link slot. -/
def patch_callee_link (la fp : Int) (m : Mem) : Mem := m.write la fp

/-- `patch_callee_link_relative(f, fp)`: store `fp - la` in the callee link
slot at address `la`. -/
def patch_callee_link_relative (la fp : Int) (m : Mem) : Mem :=
  m.write la (fp - la)

/-- `Freeze::patch_pd(hf, caller)`: relative patch when the caller is
interpreted, absolute patch otherwise. -/
def freeze_patch_pd (callerInterpreted : Bool) (la callerFp : Int) (m : Mem) : Mem :=
  if callerInterpreted then patch_callee_link_relative la callerFp m
  else patch_callee_link la callerFp m

/-! ### C4: Freeze::set_top_frame_metadata_pd and the frame-stream accessors
(continuation_x86.inline.hpp 154-165; instanceStackChunkKlass_x86.inline.hpp
54-66) -/

/-- `Freeze::set_top_frame_metadata_pd(hf)`: store the pc at `sp - 1` and, at
`fp_addr = sp - sender_sp_offset`, the frame pointer relativized against
`fp_addr` for an interpreted frame, or the absolute frame pointer for a
compiled one. -/
def set_top_frame_metadata_pd (hfSp hfFp hfPc : Int) (interpreted : Bool) (m : Mem) : Mem :=
  let m1 := m.write (hfSp - 1) hfPc
  let fp_addr := hfSp - senderSpOffset
  m1.write fp_addr (if interpreted then hfFp - fp_addr else hfFp)

/-- `StackChunkFrameStream::get_pc()`: read the word at `_sp - 1`. -/
def stream_get_pc (sp : Int) (m : Mem) : Int := m.read (sp - 1)

/-- `StackChunkFrameStream::fp()`: read the link slot at
`_sp - sender_sp_offset`; for a MIXED-stream interpreted frame add the slot's
own address back (derelativize), otherwise return the stored word as an
absolute pointer.  `interpreted` stands for
`frame_kind == chunk_frames::MIXED && is_interpreted()`. -/
def stream_fp (interpreted : Bool) (sp : Int) (m : Mem) : Int :=
  let fp_addr := sp - senderSpOffset
  if interpreted then fp_addr + m.read fp_addr else m.read fp_addr

/-! ### C5: StackChunkFrameStream navigation over interpreted frames
(instanceStackChunkKlass_x86.inline.hpp 60-66, 68-73, 90-107) -/

/-- The cursor fields of a `StackChunkFrameStream` the interpreted-frame
navigation reads and writes: `_sp`, `_unextended_sp`, `_end`. -/
structure StreamState where
  sp : Int
  unextendedSp : Int
  chunkEnd : Int

/-- `StackChunkFrameStream::fp()` at the cursor, interpreted case: read the
relativized link slot at `_sp - sender_sp_offset` and add the slot's own
address back. -/
def cursor_fp (s : StreamState) (m : Mem) : Int :=
  let fp_addr := s.sp - senderSpOffset
  fp_addr + m.read fp_addr

/-- `StackChunkFrameStream::derelativize(offset)`: `fp + fp[offset]`. -/
def cursor_derelativize (s : StreamState) (m : Mem) (offset : Int) : Int :=
  let fp := cursor_fp s m
  fp + m.read (fp + offset)

/-- `StackChunkFrameStream::next_for_interpreter_frame()`: when the frame's
locals reach or pass the recorded end, set both `_unextended_sp` and `_sp` to
`_end`; otherwise advance `_unextended_sp` to
`fp + fp[interpreter_frame_sender_sp_offset]` and `_sp` to
`fp + sender_sp_offset`. -/
def next_for_interpreter_frame (s : StreamState) (m : Mem) : StreamState :=
  if s.chunkEnd ≤ cursor_derelativize s m interpreterFrameLocalsOffset + 1 then
    { s with unextendedSp := s.chunkEnd, sp := s.chunkEnd }
  else
    let fp := cursor_fp s m
    { s with unextendedSp := fp + m.read (fp + interpreterFrameSenderSpOffset),
             sp := fp + senderSpOffset }

/-! ### C6: Thaw::align (continuation_x86.inline.hpp 284-296, _LP64 branch)
and ContinuationHelper::frame_align_words (53-59) -/

/-- `Thaw::align`'s stack-pointer correction, stated on byte addresses: when
the computed destination sp has a nonzero low nibble (`(intptr_t)vsp & 0xf`),
decrement it by one word (`vsp--`, 8 bytes on x86_64); otherwise leave it
unchanged.  The matching `caller.set_sp(caller.sp() - 1)` mirrors the same
one-word correction on the caller cursor. -/
def thaw_align_bytes (vspBytes : Int) : Int :=
  if vspBytes % 16 ≠ 0 then vspBytes - 8 else vspBytes

/-- `ContinuationHelper::frame_align_words(size)` on _LP64: `size & 1` — the
number of padding words a frame of `size` words may need. -/
def frame_align_words (size : Int) : Int := size % 2

/-! ### C7: SmallRegisterMap::location vs the general RegisterMap's saved-link
update (instanceStackChunkKlass_x86.inline.hpp 149-156, 172-229;
smallRegisterMap_aarch64.inline.hpp 62-65) -/

/-- An abstract register identity: the frame-pointer register (rbp on x86, rfp
on aarch64 — one VMReg covering both halves) or any other register. -/
inductive VMRegId where
  | framePointer
  | other (i : Nat)
deriving DecidableEq

/-- `SmallRegisterMap::location(reg, sp)`: debug builds assert the queried
register is the frame-pointer register; the answer is the constant-time
formula `sp - sender_sp_offset`.  `none` models the debug assertion firing on
any other register (release builds leave it undefined). -/
def smallRegisterMap_location (reg : VMRegId) (sp : Int) : Option Int :=
  match reg with
  | .framePointer => some (sp - senderSpOffset)
  | .other _ => none

/-- A general `RegisterMap`: a lookup from register identity to recorded save
location. -/
structure RegisterMapModel where
  loc : VMRegId → Option Int

/-- `frame::update_map_with_saved_link(map, link_addr)`: record `link_addr`
as the frame-pointer register's save location in a general map. -/
def update_map_with_saved_link (rm : RegisterMapModel) (linkAddr : Int) : RegisterMapModel :=
  ⟨fun r => match r with
    | .framePointer => some linkAddr
    | x => rm.loc x⟩

/-- The saved-link update a chunk walk applies to a general `RegisterMap` at
cursor sp: `update_map_with_saved_link(map, sp - sender_sp_offset)`
(`StackChunkFrameStream::update_reg_map_pd` outside a mounted continuation,
and `SmallRegisterMap::copy_to_RegisterMap`). -/
def chunk_walk_general_map (rm : RegisterMapModel) (sp : Int) : RegisterMapModel :=
  update_map_with_saved_link rm (sp - senderSpOffset)

/-! ### C8: Thaw::push_interpreter_return_frame
(continuation_x86.inline.hpp 305-317) -/

/-- `Thaw::push_interpreter_return_frame(sp)`: read the frame pointer stored
at `sp - sender_sp_offset`, move sp down by `ContinuationHelper::frame_metadata`
words, store the interpreter forced-preempt return stub's pc at the new
frame's return-address slot and the saved fp at the new frame's link slot,
and return the new sp.  `stubPc` stands for the address
`StubRoutines::cont_interpreter_forced_preempt_return()`. -/
def push_interpreter_return_frame (stubPc : Int) (sp : Int) (m : Mem) : Int × Mem :=
  let fp := m.read (sp - senderSpOffset)
  let sp2 := sp - frame_metadata
  let m1 := m.write (sp2 - senderSpRetAddressOffset) stubPc
  let m2 := m1.write (sp2 - senderSpOffset) fp
  (sp2, m2)

/-! ### C10: StackChunkFrameStream::to_frame
(instanceStackChunkKlass_x86.inline.hpp 46-52) -/

/-- Modelled from the spec: `StackChunkFrameStream::is_done()` is defined in
shared code absent from the excerpt; per the spec the stream "terminates at
the chunk's recorded end", and `next_for_interpreter_frame` sets `_sp` to
`_end` exactly on termination, so the cursor is done when `_sp` has reached
`_end`. -/
def StreamState.is_done (s : StreamState) : Bool := s.chunkEnd ≤ s.sp

/-- The frame view `to_frame()` materializes:
`frame(sp, unextended_sp, fp, pc, cb, oop_map, relative)`, with nullable
pointer-like fields as `Option`. -/
structure ChunkFrame where
  sp : Int
  unextendedSp : Int
  fp : Option Int
  pc : Option Int
  cb : Option Nat
  oopMap : Option Nat
  relative : Bool
deriving DecidableEq

/-- `StackChunkFrameStream::to_frame()`: a done stream yields the empty
sentinel `frame(_sp, _sp, nullptr, nullptr, nullptr, nullptr, true)` without
touching chunk memory; otherwise the frame is built from the cursor accessors
(which read the chunk), with the `relative` flag cleared only for a
non-interpreted frame of a MIXED stream. -/
def stream_to_frame (s : StreamState) (mixed interpreted : Bool)
    (cb oopMap : Option Nat) (m : Mem) : ChunkFrame :=
  if s.is_done then
    ⟨s.sp, s.sp, none, none, none, none, true⟩
  else if mixed && !interpreted then
    ⟨s.sp, s.unextendedSp, some (stream_fp interpreted s.sp m),
     some (stream_get_pc s.sp m), cb, oopMap, false⟩
  else
    ⟨s.sp, s.unextendedSp, some (stream_fp interpreted s.sp m),
     some (stream_get_pc s.sp m), cb, oopMap, true⟩

/-! ### C9: JvmtiEnvBase::get_frame_location over mounted and unmounted
virtual-thread stacks (jvmtiEnvBase.cpp 610-635, 1164-1191) -/

/-- One Java vframe as the introspection layer observes it: method identity,
bytecode index, and whether the method is native. -/
structure JavaVFrameView where
  methodId : Nat
  bci : Int
  isNative : Bool

/-- JVMTI outcomes of `get_frame_location`: `JVMTI_ERROR_NO_MORE_FRAMES`, or
`JVMTI_ERROR_NONE` with the frame's method id and location index. -/
inductive FrameLocationResult where
  | noMoreFrames
  | ok (methodId : Nat) (location : Int)
deriving DecidableEq

/-- `JvmtiEnvBase::get_frame_location(vthread_oop, depth, ...)`
(jvmtiEnvBase.cpp 1164-1191): starting from the top vframe, take `depth`
senders (`jvf = jvf->java_sender()`); if the walk runs out of frames report
`JVMTI_ERROR_NO_MORE_FRAMES`, otherwise report the reached frame's
`jmethod_id` and its location — `-1` for a native method, the frame's `bci`
otherwise. -/
def get_frame_location : List JavaVFrameView → Nat → FrameLocationResult
  | [], _ => .noMoreFrames
  | f :: _, 0 => .ok f.methodId (if f.isNative then -1 else f.bci)
  | _ :: rest, d + 1 => get_frame_location rest d

/-- A Java frame of a virtual-thread stack with its observable metadata. -/
structure PhysJavaFrame where
  methodId : Nat
  bci : Int
  isNative : Bool

/-- Modelled from the spec: the vframe stream over a *mounted* virtual thread
(`get_vthread_jvf`, mounted branch) — the vframeStream/javaVFrame machinery is
not under src/; per spec §6 it yields the live frames youngest to oldest with
each frame's method identity and location observable. -/
def mounted_jvf (stack : List PhysJavaFrame) : List JavaVFrameView :=
  stack.map (fun f => ⟨f.methodId, f.bci, f.isNative⟩)

/-- A frozen chunk's frame records (observable metadata), in walk order. -/
structure FrozenChunk where
  frames : List PhysJavaFrame

/-- Modelled from the spec: freeze "copies the frame's raw words into the
chunk" (§4.2), patching only link and self-referential metadata slots, so the
chunk records every frame's method and bytecode-index metadata unchanged and
in walk order. -/
def freeze_stack (stack : List PhysJavaFrame) : FrozenChunk := ⟨stack⟩

/-- Modelled from the spec: the vframe stream over an *unmounted* continuation
(`get_vthread_jvf`, unmounted branch) walks the chunk's frame stream without
materializing a physical stack (§6), yielding each frozen frame's method
identity and location. -/
def unmounted_jvf (c : FrozenChunk) : List JavaVFrameView :=
  c.frames.map (fun f => ⟨f.methodId, f.bci, f.isNative⟩)

end Loom

open Loom

/-- C1: an interpreted metadata slot relativized against the physical frame
pointer `vfp` in the chunk copy at base `hfp`, then copied (at arbitrary chunk
placement) to a thawed frame at destination frame pointer `fpd` and
derelativized there, reconstructs `fpd + (original - vfp)`: the slot's contents
sit at the same position relative to the frame pointer as in the original
frame, independently of the chunk base `hfp` the bytes travelled through, so
thawing from any chunk base yields the same reconstructed slot contents. -/
theorem relativize_derelativize_roundtrip
    (m : Mem) (vfp hfp off fpd : Int)
    (hcopy : m.read (hfp + off) = m.read (vfp + off))
    (m2 : Mem)
    (hthaw : m2.read (fpd + off) = (relativize_one vfp hfp off m).read (hfp + off)) :
    ((derelativize_one fpd off m2).read (fpd + off) = fpd + (m.read (vfp + off) - vfp))
    ∧ ((derelativize_one fpd off m2).read (fpd + off) - fpd
        = m.read (vfp + off) - vfp) := by
  have h1 : (relativize_one vfp hfp off m).read (hfp + off)
      = m.read (hfp + off) - vfp := by
    simp [relativize_one, Mem.read_write_same]
  have h2 : (derelativize_one fpd off m2).read (fpd + off)
      = fpd + m2.read (fpd + off) := by
    simp [derelativize_one, Mem.read_write_same]
  rw [h2, hthaw, h1, hcopy]
  constructor <;> ring

/-- Witness for C1 at concrete values. -/
theorem relativize_derelativize_roundtrip_witness :
    let m : Mem := fun a => if a = (100 : Int) + 3 then 105 else if a = 20 + 3 then 105 else 0
    let m2 : Mem := fun a => if a = (40 : Int) + 3 then 5 else 0
    ((derelativize_one 40 3 m2).read (40 + 3) = 40 + (m.read (100 + 3) - 100))
    ∧ ((derelativize_one 40 3 m2).read (40 + 3) - 40 = m.read (100 + 3) - 100) := by
  exact relativize_derelativize_roundtrip
    (fun a => if a = (100 : Int) + 3 then 105 else if a = 20 + 3 then 105 else 0)
    100 20 3 40 (by norm_num [Mem.read])
    (fun a => if a = (40 : Int) + 3 then 5 else 0)
    (by norm_num [Mem.read, relativize_one, Mem.write])

/-- C2: chunk placement computed by `Freeze::new_hframe`.  An interpreted
frame's chunk frame pointer is the caller's unextended sp minus
(max_locals + metadata word count), with the frame's outgoing stack-argument
size added back exactly when the caller is interpreted or empty; a compiled
frame's chunk sp is the caller's unextended sp minus the fixed frame size,
further reduced by the stack-argument size exactly when the caller is
interpreted. -/
theorem new_hframe_placement (caller : FrameView)
    (locals argsize fpMinusUnextendedSp fsize cargsize : Int) :
    ((new_hframe_interpreted caller locals argsize fpMinusUnextendedSp).2
        = caller.unextendedSp - (locals + frame_metadata)
          + (if caller.interpreted || caller.empty then argsize else 0))
    ∧ (new_hframe_compiled caller fsize cargsize
        = caller.unextendedSp - fsize
          - (if caller.interpreted then cargsize else 0)) := by
  unfold new_hframe_interpreted new_hframe_compiled frame_metadata
  constructor
  · rfl
  · split <;> ring

/-- C3: the freeze patch step's callee→caller link asymmetry.  After
`Freeze::patch_pd`, the callee link slot at address `la` holds
`caller.fp - la` when the caller is interpreted and the absolute `caller.fp`
otherwise; no other memory word changes. -/
theorem freeze_patch_pd_link (callerInterpreted : Bool) (la callerFp : Int) (m : Mem) :
    ((freeze_patch_pd callerInterpreted la callerFp m).read la
        = if callerInterpreted then callerFp - la else callerFp)
    ∧ (∀ x : Int, x ≠ la →
        (freeze_patch_pd callerInterpreted la callerFp m).read x = m.read x) := by
  unfold freeze_patch_pd patch_callee_link patch_callee_link_relative
  cases callerInterpreted <;>
    exact ⟨Mem.read_write_same m la _, fun x hx => Mem.read_write_ne m la _ x hx⟩

/-- Witness for C3 at a concrete input (interpreted caller, la = 7,
fp = 19, zero memory): the slot holds 12 and address 3 is untouched. -/
theorem freeze_patch_pd_link_witness :
    ((freeze_patch_pd true 7 19 (fun _ => 0)).read 7 = if true then 19 - 7 else 19)
    ∧ ((freeze_patch_pd true 7 19 (fun _ => 0)).read 3 = (fun _ => (0 : Int)) 3) :=
  ⟨(freeze_patch_pd_link true 7 19 (fun _ => 0)).1,
   (freeze_patch_pd_link true 7 19 (fun _ => 0)).2 3 (by decide)⟩

/-- C4: for both tiers, the frame stream recovers exactly what
`Freeze::set_top_frame_metadata_pd` stored for the chunk's top frame:
`get_pc()` returns the pc written at `sp - 1`, and `fp()` returns the frozen
frame pointer — the link slot holds `fp` relativized against the slot's own
address for an interpreted frame and the absolute `fp` for a compiled frame,
and `fp()` adds the slot address back only in the interpreted case, so the
composition is the identity on the recorded frame pointer. -/
theorem top_frame_metadata_roundtrip (hfSp hfFp hfPc : Int) (interpreted : Bool) (m : Mem) :
    (stream_get_pc hfSp (set_top_frame_metadata_pd hfSp hfFp hfPc interpreted m) = hfPc)
    ∧ (stream_fp interpreted hfSp (set_top_frame_metadata_pd hfSp hfFp hfPc interpreted m)
        = hfFp) := by
  have hne : hfSp - 1 ≠ hfSp - senderSpOffset := by unfold senderSpOffset; omega
  unfold set_top_frame_metadata_pd stream_get_pc stream_fp
  refine ⟨?_, ?_⟩
  · rw [Mem.read_write_ne _ _ _ _ hne, Mem.read_write_same]
  · cases interpreted <;> simp [Mem.read_write_same]

/-- C5: one step of the mixed frame stream over an interpreted frame strictly
increases the cursor's stack-pointer offset — the successor sp is the current
frame's (derelativized) fp plus the metadata word count, which lies strictly
above the current sp — and the stream terminates at the recorded end exactly
once: when the frame's locals reach or pass `_end`, both `_sp` and
`_unextended_sp` are set exactly to `_end`.  The hypotheses say the cursor has
not yet reached the end and the frame is well-formed (its relativized link
slot places fp at or above sp, i.e. the stored offset is at least the metadata
word count). -/
theorem stream_step_strictly_increases (s : StreamState) (m : Mem)
    (hnotdone : s.sp < s.chunkEnd)
    (hwf : senderSpOffset ≤ m.read (s.sp - senderSpOffset)) :
    (s.sp < (next_for_interpreter_frame s m).sp)
    ∧ (s.chunkEnd ≤ cursor_derelativize s m interpreterFrameLocalsOffset + 1 →
        (next_for_interpreter_frame s m).sp = s.chunkEnd
        ∧ (next_for_interpreter_frame s m).unextendedSp = s.chunkEnd)
    ∧ (cursor_derelativize s m interpreterFrameLocalsOffset + 1 < s.chunkEnd →
        (next_for_interpreter_frame s m).sp = cursor_fp s m + senderSpOffset
        ∧ s.sp < cursor_fp s m + senderSpOffset) := by
  have hfp_eq : cursor_fp s m = (s.sp - senderSpOffset) + m.read (s.sp - senderSpOffset) := rfl
  have h2 : s.sp < cursor_fp s m + senderSpOffset := by
    rw [hfp_eq]
    unfold senderSpOffset at hwf ⊢
    omega
  by_cases hend : s.chunkEnd ≤ cursor_derelativize s m interpreterFrameLocalsOffset + 1
  · have hs : next_for_interpreter_frame s m
        = { s with unextendedSp := s.chunkEnd, sp := s.chunkEnd } := by
      unfold next_for_interpreter_frame
      rw [if_pos hend]
    rw [hs]
    exact ⟨hnotdone, fun _ => ⟨rfl, rfl⟩, fun hlt => absurd hend (not_le.mpr hlt)⟩
  · have hs : next_for_interpreter_frame s m
        = { s with
            unextendedSp :=
              cursor_fp s m + m.read (cursor_fp s m + interpreterFrameSenderSpOffset),
            sp := cursor_fp s m + senderSpOffset } := by
      unfold next_for_interpreter_frame
      rw [if_neg hend]
    rw [hs]
    exact ⟨h2, fun hge => absurd hge hend, fun _ => ⟨rfl, h2⟩⟩

/-- A concrete chunk memory for the C5 witness: the cursor at sp = 10 sees a
relativized link slot holding 4 (fp = 12), a locals slot at fp - 7 holding 3,
and a sender-sp slot at fp - 1 holding 2, inside a chunk ending at 20. -/
def c5mem : Mem := fun a =>
  if a = 8 then 4 else if a = 5 then 3 else if a = 11 then 2 else 0

/-- The C5 witness cursor state. -/
def c5state : StreamState := ⟨10, 10, 20⟩

/-- Witness for C5: at the concrete cursor, one step moves sp from 10 up. -/
theorem stream_step_strictly_increases_witness :
    c5state.sp < (next_for_interpreter_frame c5state c5mem).sp :=
  (stream_step_strictly_increases c5state c5mem (by decide) (by decide)).1

/-- C6: the thaw align step inserts at most one padding word — for a
word-aligned destination pointer (every `intptr_t*` is), it decrements the
pointer by exactly one 8-byte word when the pointer is not 16-byte aligned
and leaves it unchanged otherwise, and the result is always 16-byte
aligned. -/
theorem thaw_align_at_most_one_word (vsp : Int) (h : (8 : Int) ∣ vsp) :
    ((thaw_align_bytes vsp) % 16 = 0)
    ∧ (vsp % 16 = 0 → thaw_align_bytes vsp = vsp)
    ∧ (vsp % 16 ≠ 0 → thaw_align_bytes vsp = vsp - 8) := by
  rcases h with ⟨k, rfl⟩
  unfold thaw_align_bytes
  split <;> omega

/-- Witness for C6 at the concrete misaligned pointer 40 (= 8·5): the align
step subtracts one word, yielding the 16-byte-aligned 32. -/
theorem thaw_align_at_most_one_word_witness :
    (((thaw_align_bytes 40) % 16 = 0)
    ∧ ((40 : Int) % 16 = 0 → thaw_align_bytes 40 = 40)
    ∧ ((40 : Int) % 16 ≠ 0 → thaw_align_bytes 40 = 40 - 8)) :=
  thaw_align_at_most_one_word 40 (by decide)

/-- C7: on every chunk-walk state with stack pointer sp, the restricted
(small) register map's answer for the frame-pointer register is
`sp - sender_sp_offset` — exactly the save location the general register map
records for that walk state via the saved-link update — so the two map
variants agree on the frame-pointer register for every chunk walk and every
prior general-map state; any other register hits the restricted map's debug
assertion (modelled as `none`). -/
theorem small_map_matches_general_map (rm : RegisterMapModel) (sp : Int) :
    (smallRegisterMap_location VMRegId.framePointer sp
        = (chunk_walk_general_map rm sp).loc VMRegId.framePointer)
    ∧ (smallRegisterMap_location VMRegId.framePointer sp = some (sp - senderSpOffset))
    ∧ (∀ i : Nat, smallRegisterMap_location (VMRegId.other i) sp = none) :=
  ⟨rfl, rfl, fun _ => rfl⟩

/-- C8: `push_interpreter_return_frame(sp)` returns `sp` lowered by exactly
the frame-metadata word count; the new frame's return-address slot holds the
forced-preempt stub pc, its link slot holds the frame-pointer word read from
`sp - sender_sp_offset` before the push, and every other stack word is left
unmodified. -/
theorem push_interpreter_return_frame_spec (stubPc sp : Int) (m : Mem) :
    ((push_interpreter_return_frame stubPc sp m).1 = sp - frame_metadata)
    ∧ ((push_interpreter_return_frame stubPc sp m).2.read
         (sp - frame_metadata - senderSpRetAddressOffset) = stubPc)
    ∧ ((push_interpreter_return_frame stubPc sp m).2.read
         (sp - frame_metadata - senderSpOffset) = m.read (sp - senderSpOffset))
    ∧ (∀ a : Int, a ≠ sp - frame_metadata - senderSpRetAddressOffset →
        a ≠ sp - frame_metadata - senderSpOffset →
        (push_interpreter_return_frame stubPc sp m).2.read a = m.read a) := by
  unfold push_interpreter_return_frame frame_metadata senderSpRetAddressOffset senderSpOffset
  refine ⟨rfl, ?_, ?_, ?_⟩
  · rw [Mem.read_write_ne _ _ _ _ (by omega), Mem.read_write_same]
  · rw [Mem.read_write_same]
  · intro a h1 h2
    rw [Mem.read_write_ne _ _ _ _ h2, Mem.read_write_ne _ _ _ _ h1]

/-- A concrete stack memory for the C8 witness. -/
def c8mem : Mem := fun a => if a = 48 then 77 else 5

/-- Witness for C8: pushing the synthetic return frame at sp = 50 leaves the
unrelated stack word at address 10 unchanged. -/
theorem push_interpreter_return_frame_witness :
    (push_interpreter_return_frame 900 50 c8mem).2.read 10 = c8mem.read 10 :=
  (push_interpreter_return_frame_spec 900 50 c8mem).2.2.2 10 (by decide) (by decide)

/-- C10: once the frame stream is done, `to_frame()` is still defined and
returns the empty sentinel frame — null fp, pc, code blob and oop map, with
sp and unextended sp equal to the cursor's final position — and its value
does not depend on the chunk memory at all (no frame word beyond the
recorded end is read). -/
theorem to_frame_done_sentinel (s : StreamState) (mixed interpreted : Bool)
    (cb oopMap : Option Nat) (m : Mem) (h : s.is_done = true) :
    (stream_to_frame s mixed interpreted cb oopMap m
        = ⟨s.sp, s.sp, none, none, none, none, true⟩)
    ∧ (∀ m2 : Mem, stream_to_frame s mixed interpreted cb oopMap m
        = stream_to_frame s mixed interpreted cb oopMap m2) := by
  unfold stream_to_frame
  rw [if_pos h]
  exact ⟨rfl, fun m2 => by rw [if_pos h]⟩

/-- Witness for C10: a cursor that has reached the end (sp = end = 20)
yields the sentinel frame. -/
theorem to_frame_done_sentinel_witness :
    stream_to_frame ⟨20, 20, 20⟩ true false none none (fun _ => 0)
      = ⟨20, 20, none, none, none, none, true⟩ :=
  (to_frame_done_sentinel ⟨20, 20, 20⟩ true false none none (fun _ => 0) (by decide)).1

/-- `get_frame_location` reports NO_MORE_FRAMES exactly when the requested
depth is at or past the end of the vframe chain. -/
theorem get_frame_location_no_more_frames (l : List JavaVFrameView) (d : Nat) :
    get_frame_location l d = FrameLocationResult.noMoreFrames ↔ l.length ≤ d := by
  induction l generalizing d with
  | nil => simp [get_frame_location]
  | cons f rest ih =>
    cases d with
    | zero => simp [get_frame_location]
    | succ d2 =>
      rw [show get_frame_location (f :: rest) (d2 + 1) = get_frame_location rest d2 from rfl,
        ih d2]
      simp [Nat.succ_le_succ_iff]

/-- C9: for every suspended virtual-thread stack and every frame depth,
`get_frame_location` over the unmounted (frozen-in-chunk) walk returns the
same method identity and the same location index (bci, or -1 for a native
method) as over the mounted walk of the same stack — including agreement on
the NO_MORE_FRAMES boundary, which both hit exactly when the depth is at or
past the number of frames. -/
theorem get_frame_location_frozen_agrees (stack : List PhysJavaFrame) (depth : Nat) :
    (get_frame_location (unmounted_jvf (freeze_stack stack)) depth
        = get_frame_location (mounted_jvf stack) depth)
    ∧ (get_frame_location (unmounted_jvf (freeze_stack stack)) depth
          = FrameLocationResult.noMoreFrames ↔ stack.length ≤ depth) := by
  have hsame : unmounted_jvf (freeze_stack stack) = mounted_jvf stack := rfl
  refine ⟨by rw [hsame], ?_⟩
  rw [hsame, get_frame_location_no_more_frames]
  unfold mounted_jvf
  rw [List.length_map]
